import Mathlib

/-!
Shallow embedding of `src/python/sushi_go_client.py` (Sushi Go starter-kit
client).  Hands are ordered lists of card-name strings, exactly as in the
Python code; the `GameState` dataclass becomes a Lean structure (the
`important_cards` dict with its four fixed keys becomes four `Nat` fields);
the decision engine `choose_card`, the tracker updates `parse_hand` /
`handle_message`, the commit step `play_turn` and the session driver `run`
become pure functions, with the inbound byte stream replaced by a list of
decoded server messages and Python's `random.randint(0, len(hand)-1)` by an
explicit oracle argument.
-/

/-- The three nigiri card names, in the tuple order used by `parse_hand`. -/
def nigiriCards : List String := ["Egg Nigiri", "Salmon Nigiri", "Squid Nigiri"]

/-- The `set_cards` list of `have_set`. -/
def setCards : List String := ["Dumpling", "Sashimi", "Tempura"]

/-- The fallback priority list of `choose_card` (lines 311-319). -/
def priorityCards : List String :=
  ["Squid Nigiri", "Salmon Nigiri", "Egg Nigiri",
   "Maki Roll (3)", "Maki Roll (2)", "Maki Roll (1)", "Pudding"]

/-- The `GameState` dataclass.  The `important_cards` dict has the four fixed
keys Dumpling / Sashimi / Tempura / Pudding, modelled as the four `_count`
fields.  The unused `P2_..`/`P5_..` fields of the dataclass are omitted. -/
structure GameState where
  game_id : String
  player_id : Nat
  hand : List String
  starting_hand_size : Nat
  round : Nat
  turn : Nat
  played_cards : List String
  dumpling_count : Nat
  sashimi_count : Nat
  tempura_count : Nat
  pudding_count : Nat
  has_chopsticks : Bool
  has_unused_wasabi : Bool
  deriving Repr, DecidableEq

/-- The value returned by `choose_card`: a plain `int` index for a single
play, or a Python list of indices for a chopsticks play. -/
inductive PyRet where
  | intRet (i : Nat)
  | listRet (l : List Nat)
  deriving Repr, DecidableEq

/-- A decoded inbound server message (the line prefix plus its typed fields);
`other` stands for any line the client does not recognise, including empty
lines. -/
inductive ServerMsg where
  | welcome (gid : String) (pid : Nat)
  | error
  | hand (cards : List String)
  | roundStart (n : Nat)
  | played
  | roundEnd
  | gameEnd
  | waiting
  | ok
  | other
  deriving Repr, DecidableEq

/-- An outbound command sent by the client. -/
inductive OutMsg where
  | join (gid pname : String)
  | ready
  | play (i : Nat)
  | chopsticks (i j : Nat)
  deriving Repr, DecidableEq

/-- `have_wasabi_and_nigiri` (lines 175-187): a wasabi index paired with the
best nigiri index, or the empty list. -/
def have_wasabi_and_nigiri (hand : List String) : List Nat :=
  if "Wasabi" ∈ hand ∧ "Squid Nigiri" ∈ hand then
    [hand.indexOf "Wasabi", hand.indexOf "Squid Nigiri"]
  else if "Wasabi" ∈ hand ∧ "Salmon Nigiri" ∈ hand then
    [hand.indexOf "Wasabi", hand.indexOf "Salmon Nigiri"]
  else if "Wasabi" ∈ hand ∧ "Egg Nigiri" ∈ hand then
    [hand.indexOf "Wasabi", hand.indexOf "Egg Nigiri"]
  else []

/-- `have_set` (lines 189-200): the set cards having at least two copies in
hand, in `setCards` order. -/
def have_set (hand : List String) : List String :=
  setCards.filter (fun card => 2 ≤ (hand.filter (fun c => c = card)).length)

/-- The Python list comprehension
`[i for i, card in enumerate(hand) if card == name]`. -/
def card_indexes (hand : List String) (name : String) : List Nat :=
  (List.range hand.length).filter (fun i => hand.getD i "" = name)

/-- Rule 1 of `choose_card` (lines 249-250): acquire Wasabi. -/
def rule_wasabi_acquire (s : GameState) (hand : List String) :
    GameState × Option PyRet :=
  if ¬s.has_unused_wasabi ∧ "Wasabi" ∈ hand ∧ 5 < hand.length then
    (s, some (.intRet (hand.indexOf "Wasabi")))
  else (s, none)

/-- Rule 2 of `choose_card` (lines 252-253): acquire Chopsticks. -/
def rule_chopsticks_acquire (s : GameState) (hand : List String) :
    GameState × Option PyRet :=
  if ¬s.has_chopsticks ∧ "Chopsticks" ∈ hand ∧ 5 < hand.length then
    (s, some (.intRet (hand.indexOf "Chopsticks")))
  else (s, none)

/-- Rule 3 of `choose_card` (lines 256-260): spend wasabi, hand length > 5. -/
def rule_wasabi_spend_large (s : GameState) (hand : List String) :
    GameState × Option PyRet :=
  if s.has_unused_wasabi ∧ 5 < hand.length then
    if "Squid Nigiri" ∈ hand then
      ({ s with has_unused_wasabi := false },
       some (.intRet (hand.indexOf "Squid Nigiri")))
    else if "Salmon Nigiri" ∈ hand then
      ({ s with has_unused_wasabi := false },
       some (.intRet (hand.indexOf "Salmon Nigiri")))
    else (s, none)
  else (s, none)

/-- Rule 4 of `choose_card` (lines 262-266): spend wasabi, hand length ≤ 5. -/
def rule_wasabi_spend_small (s : GameState) (hand : List String) :
    GameState × Option PyRet :=
  if s.has_unused_wasabi ∧ hand.length ≤ 5 then
    if "Squid Nigiri" ∈ hand then
      ({ s with has_unused_wasabi := false },
       some (.intRet (hand.indexOf "Squid Nigiri")))
    else if "Salmon Nigiri" ∈ hand then
      ({ s with has_unused_wasabi := false },
       some (.intRet (hand.indexOf "Salmon Nigiri")))
    else if "Egg Nigiri" ∈ hand then
      ({ s with has_unused_wasabi := false },
       some (.intRet (hand.indexOf "Egg Nigiri")))
    else (s, none)
  else (s, none)

/-- The `for name in playing:` loop of the chopsticks branch
(lines 279-293).  Fractional gates `len > shs/2` and `len > 2*(shs/3)` are
the integer-exact forms `2*len > shs` and `3*len > 2*shs`. -/
def combo_loop (s : GameState) (hand : List String) :
    List String → GameState × Option PyRet
  | [] => (s, none)
  | name :: rest =>
    if name = "Dumpling" ∧ s.dumpling_count ≤ 3 then
      if s.dumpling_count = 0 ∧ s.starting_hand_size < 2 * s.hand.length then
        combo_loop s hand rest
      else
        ({ s with dumpling_count := s.dumpling_count + 2, has_chopsticks := false },
         some (.listRet ((card_indexes hand "Dumpling").take 2)))
    else if name = "Sashimi" ∧ s.sashimi_count = 0 ∧
        2 * s.starting_hand_size < 3 * s.hand.length then
      ({ s with sashimi_count := s.sashimi_count + 2, has_chopsticks := false },
       some (.listRet ((card_indexes hand "Sashimi").take 2)))
    else if name = "Tempura" then
      ({ s with tempura_count := s.tempura_count + 2, has_chopsticks := false },
       some (.listRet ((card_indexes hand "Tempura").take 2)))
    else combo_loop s hand rest

/-- Rule 5 of `choose_card` (lines 268-293): the chopsticks combo. -/
def chopsticks_combo (s : GameState) (hand : List String) :
    GameState × Option PyRet :=
  if s.has_chopsticks then
    if have_wasabi_and_nigiri hand ≠ [] ∧ (have_wasabi_and_nigiri hand).length = 2 then
      (s, some (.listRet (have_wasabi_and_nigiri hand)))
    else combo_loop s hand (have_set hand)
  else (s, none)

/-- The single-card Dumpling rule (lines 295-300). -/
def dumpling_single (s : GameState) (hand : List String) :
    GameState × Option PyRet :=
  if "Dumpling" ∈ hand ∧ s.dumpling_count ≤ 4 then
    if s.dumpling_count = 0 ∧ s.starting_hand_size < 2 * s.hand.length then
      (s, none)
    else
      ({ s with dumpling_count := s.dumpling_count + 1 },
       some (.intRet (hand.indexOf "Dumpling")))
  else (s, none)

/-- The single-card Sashimi rule (lines 301-303). -/
def sashimi_single (s : GameState) (hand : List String) :
    GameState × Option PyRet :=
  if "Sashimi" ∈ hand ∧ s.sashimi_count = 2 then
    ({ s with sashimi_count := s.sashimi_count + 1 },
     some (.intRet (hand.indexOf "Sashimi")))
  else (s, none)

/-- The single-card Tempura rule (lines 304-309): the counter is incremented
before the deferral test. -/
def tempura_single (s : GameState) (hand : List String) :
    GameState × Option PyRet :=
  if "Tempura" ∈ hand ∧ s.starting_hand_size ≤ 2 * s.hand.length then
    if (s.tempura_count + 1) % 2 = 0 ∧ s.hand.length < 4 then
      ({ s with tempura_count := s.tempura_count + 1 }, none)
    else
      ({ s with tempura_count := s.tempura_count + 1 },
       some (.intRet (hand.indexOf "Tempura")))
  else (s, none)

/-- The fallback priority loop (lines 321-325). -/
def priority_loop (s : GameState) (hand : List String) :
    List String → GameState × Option PyRet
  | [] => (s, none)
  | card :: rest =>
    if card ∈ hand then
      if card = "Pudding" then
        ({ s with pudding_count := s.pudding_count + 1 },
         some (.intRet (hand.indexOf card)))
      else (s, some (.intRet (hand.indexOf card)))
    else priority_loop s hand rest

/-- Early-return plumbing: a fired rule ends `choose_card`, a rule that fell
through passes its (possibly mutated) state to the rest of the cascade. -/
def afterRule (step : GameState × Option PyRet)
    (next : GameState → GameState × PyRet) : GameState × PyRet :=
  match step with
  | (s, some a) => (s, a)
  | (s, none) => next s

/-- `choose_card` (lines 203-328): the full rule cascade.  `r` is the value
produced by `random.randint(0, len(hand) - 1)` in the final fallback. -/
def choose_card (s : GameState) (hand : List String) (r : Nat) :
    GameState × PyRet :=
  afterRule (rule_wasabi_acquire s hand) fun s =>
  afterRule (rule_chopsticks_acquire s hand) fun s =>
  afterRule (rule_wasabi_spend_large s hand) fun s =>
  afterRule (rule_wasabi_spend_small s hand) fun s =>
  afterRule (chopsticks_combo s hand) fun s =>
  afterRule (dumpling_single s hand) fun s =>
  afterRule (sashimi_single s hand) fun s =>
  afterRule (tempura_single s hand) fun s =>
  afterRule (priority_loop s hand priorityCards) fun s =>
  (s, .intRet r)

/-- `parse_hand` (lines 150-173) on an already decoded card list: round
boundary reset when the incoming hand is strictly longer, then store the new
hand, then recompute the two flags from `played_cards`. -/
def parse_hand (s : GameState) (cards : List String) : GameState :=
  let s1 :=
    if s.hand.length < cards.length then
      { s with
        played_cards := []
        dumpling_count := 0, sashimi_count := 0, tempura_count := 0 }
    else s
  let s2 := { s1 with hand := cards }
  { s2 with
    has_chopsticks := s2.played_cards.contains "Chopsticks"
    has_unused_wasabi :=
      (s2.played_cards.any fun c => c == "Wasabi") &&
      !(s2.played_cards.any fun c => nigiriCards.contains c) }

/-- `handle_message` (lines 334-358): the tracker update for one decoded
message, returning the updated state and the `running` flag. -/
def handle_message (s : GameState) (m : ServerMsg) : GameState × Bool :=
  match m with
  | .hand cards => (parse_hand s cards, true)
  | .roundStart n => ({ s with round := n, turn := 1, played_cards := [] }, true)
  | .played => ({ s with turn := s.turn + 1 }, true)
  | .roundEnd => ({ s with played_cards := [] }, true)
  | .gameEnd => (s, false)
  | _ => (s, true)

/-- `play_turn` (lines 360-381): run `choose_card` on the stored hand and
commit the result, eagerly updating `played_cards` (and, for a chopsticks
play, removing one played Chopsticks and clearing the flag).  Out-of-range
list accesses (which would raise in Python) are modelled with `getD`. -/
def play_turn (s : GameState) (r : Nat) : GameState × List OutMsg :=
  if s.hand = [] then (s, [])
  else
    match choose_card s s.hand r with
    | (s1, .listRet l) =>
      let i := l.getD 0 0
      let j := l.getD 1 0
      let pc1 := s1.played_cards ++ [s1.hand.getD i "", s1.hand.getD j ""]
      let pc2 := if "Chopsticks" ∈ pc1 then pc1.erase "Chopsticks" else pc1
      ({ s1 with played_cards := pc2, has_chopsticks := false },
       [OutMsg.chopsticks i j])
    | (s1, .intRet i) =>
      ({ s1 with played_cards := s1.played_cards ++ [s1.hand.getD i ""] },
       [OutMsg.play i])

/-- Outcome of `join_game`'s `receive_until` scan (lines 119-133): the first
WELCOME or ERROR line decides the join; a stream that ends first raises
`ConnectionError` inside `receive`. -/
inductive JoinResult where
  | accepted (gid : String) (pid : Nat) (rest : List ServerMsg)
  | rejected
  | disconnected
  deriving Repr, DecidableEq

/-- Scan the inbound stream for the response to JOIN, skipping every line
that is neither WELCOME nor ERROR. -/
def join_scan : List ServerMsg → JoinResult
  | [] => .disconnected
  | .welcome g p :: rest => .accepted g p rest
  | .error :: _ => .rejected
  | _ :: rest => join_scan rest

/-- The `GameState(...)` constructed on WELCOME (line 128), with the
dataclass defaults of lines 46-60. -/
def initState (gid : String) (pid : Nat) : GameState :=
  { game_id := gid, player_id := pid, hand := [],
    starting_hand_size := 0, round := 1, turn := 1, played_cards := [],
    dumpling_count := 0, sashimi_count := 0, tempura_count := 0,
    pudding_count := 0, has_chopsticks := false, has_unused_wasabi := false }

/-- The `while running` loop of `run` (lines 398-405): handle each message
and, on a HAND with a non-empty stored hand, play a turn.  One oracle value
is consumed per HAND message. -/
def runLoop (s : GameState) : List ServerMsg → List Nat → GameState × List OutMsg
  | [], _ => (s, [])
  | m :: rest, rands =>
    let s1 := (handle_message s m).1
    let running := (handle_message s m).2
    let step : GameState × List OutMsg :=
      match m with
      | .hand _ => if s1.hand ≠ [] then play_turn s1 (rands.headD 0) else (s1, [])
      | _ => (s1, [])
    if running then
      let rest_run := runLoop step.1 rest rands.tail
      (rest_run.1, step.2 ++ rest_run.2)
    else step

/-- The result of one `run` call: the final tracked state (if a state was
ever created), every command sent, and whether the transport was released
(the `finally: self.disconnect()` of line 411-412, taken on every path). -/
structure RunResult where
  state : Option GameState
  sent : List OutMsg
  released : Bool
  deriving Repr, DecidableEq

/-- `run` (lines 383-412): connect, JOIN, on WELCOME send READY and discard
one reply, seed `starting_hand_size` from the *currently stored* hand and
zero the counters (lines 396-397), then enter the main loop. -/
def run (gid pname : String) (inbound : List ServerMsg) (rands : List Nat) :
    RunResult :=
  match join_scan inbound with
  | .rejected => ⟨none, [OutMsg.join gid pname], true⟩
  | .disconnected => ⟨none, [OutMsg.join gid pname], true⟩
  | .accepted g p rest =>
    match rest with
    | [] => ⟨some (initState g p), [OutMsg.join gid pname, OutMsg.ready], true⟩
    | _ :: rest2 =>
      let s0 := initState g p
      let s1 := { s0 with
        starting_hand_size := s0.hand.length
        dumpling_count := 0, sashimi_count := 0
        tempura_count := 0, pudding_count := 0 }
      let loop_out := runLoop s1 rest2 rands
      ⟨some loop_out.1, [OutMsg.join gid pname, OutMsg.ready] ++ loop_out.2, true⟩

/-! ### Concrete states and streams used in the theorems below -/

/-- An eight-card first hand, used to exercise a full session. -/
def cexHandLong : List String :=
  ["Tempura", "Tempura", "Sashimi", "Dumpling", "Squid Nigiri", "Pudding",
   "Wasabi", "Chopsticks"]

/-- A state holding chopsticks whose hand offers a wasabi-plus-nigiri pair. -/
def cexState3 : GameState :=
  { initState "g" 1 with hand := ["Wasabi", "Squid Nigiri"], has_chopsticks := true }

/-- A state about to play Wasabi by rule 1 while a Nigiri already sits in
`played_cards`. -/
def cexState4 : GameState :=
  { initState "g" 1 with
    hand := ["Wasabi", "Tempura", "Dumpling", "Maki Roll (1)", "Pudding", "Chopsticks"]
    played_cards := ["Egg Nigiri"], starting_hand_size := 8 }

/-- A state holding an unused wasabi (flag and played cards agree). -/
def cexState5 : GameState :=
  { initState "g" 1 with
    hand := ["Pudding"], played_cards := ["Wasabi"], has_unused_wasabi := true }

/-- A state in which rule 4 will spend the held wasabi on an Egg Nigiri. -/
def cexState10 : GameState :=
  { initState "g" 1 with
    hand := ["Egg Nigiri"], played_cards := ["Wasabi"], has_unused_wasabi := true
    starting_hand_size := 2 }

/-- Witness state for the round-boundary reset. -/
def wState2 : GameState :=
  { initState "g" 1 with
    hand := ["Pudding", "Tempura", "Sashimi"], played_cards := ["Dumpling"]
    dumpling_count := 1, sashimi_count := 2, tempura_count := 1, pudding_count := 3 }

/-- Witness state for decision-engine validity. -/
def wState3 : GameState := { initState "g" 1 with hand := ["Pudding"] }

/-- Witness state for the wasabi-acquire half of the wasabi lifecycle. -/
def wState4 : GameState :=
  { initState "g" 1 with
    hand := ["Wasabi", "Tempura", "Dumpling", "Maki Roll (1)", "Pudding", "Sashimi"]
    starting_hand_size := 8 }

/-- Witness state for the Dumpling deferral gate. -/
def wState6 : GameState :=
  { initState "g" 1 with
    hand := ["Dumpling", "Pudding", "Tempura", "Sashimi", "Egg Nigiri"]
    starting_hand_size := 8 }

/-- Witness state for the Tempura increment-on-deferral behaviour. -/
def wState8 : GameState :=
  { initState "g" 1 with
    hand := ["Tempura", "Pudding", "Egg Nigiri"], tempura_count := 1
    starting_hand_size := 6 }

/-- Witness state for the Sashimi counter step. -/
def wState9 : GameState :=
  { initState "g" 1 with
    hand := ["Sashimi", "Pudding"], sashimi_count := 2, starting_hand_size := 6 }

/-- Witness state for the commit effects of a single play. -/
def wState10 : GameState :=
  { initState "g" 1 with hand := ["Squid Nigiri", "Pudding"], starting_hand_size := 6 }

/-! ### Helper lemmas about indexing -/

theorem getD_of_lt {l : List String} {n : Nat} {d : String} (h : n < l.length) :
    l.getD n d = l[n] := by
  rw [List.getD_eq_getElem?_getD, List.getElem?_eq_getElem h]; rfl

theorem getD_indexOf {l : List String} {a : String} (hm : a ∈ l) (d : String) :
    l.getD (l.indexOf a) d = a := by
  have hlt := List.indexOf_lt_length.2 hm
  rw [getD_of_lt hlt]
  exact List.getElem_indexOf hlt

theorem mem_card_indexes {hand : List String} {name : String} {i : Nat} :
    i ∈ card_indexes hand name ↔ i < hand.length ∧ hand.getD i "" = name := by
  simp [card_indexes, List.mem_filter, List.mem_range]

theorem card_indexes_pairwise (hand : List String) (name : String) :
    (card_indexes hand name).Pairwise (· < ·) :=
  (List.pairwise_lt_range hand.length).sublist (List.filter_sublist _)

theorem card_indexes_cons (a : String) (t : List String) (name : String) :
    card_indexes (a :: t) name =
      (if a = name then [0] else []) ++ (card_indexes t name).map Nat.succ := by
  unfold card_indexes
  rw [List.length_cons, List.range_succ_eq_map, List.filter_cons, List.filter_map]
  simp only [Function.comp_def, List.getD_cons_zero, List.getD_cons_succ]
  split <;> simp_all

theorem card_indexes_length (hand : List String) (name : String) :
    (card_indexes hand name).length = (hand.filter (fun c => c = name)).length := by
  induction hand with
  | nil => rfl
  | cons a t ih =>
    rw [card_indexes_cons, List.filter_cons]
    simp only [List.length_append, List.length_map, ih]
    split <;> simp_all [Nat.add_comm]

theorem take_two_of_two_le {l : List Nat} (h : 2 ≤ l.length) :
    ∃ i j tl, l = i :: j :: tl := by
  cases l with
  | nil => simp at h
  | cons i l' =>
    cases l' with
    | nil => simp at h
    | cons j tl => exact ⟨i, j, tl, rfl⟩

/-! ### Frame infrastructure for the rule cascade -/

/-- The fields of `GameState` that no rule of `choose_card` ever writes. -/
def SameCore (s s' : GameState) : Prop :=
  s'.game_id = s.game_id ∧ s'.player_id = s.player_id ∧ s'.hand = s.hand ∧
  s'.starting_hand_size = s.starting_hand_size ∧ s'.round = s.round ∧
  s'.turn = s.turn ∧ s'.played_cards = s.played_cards

theorem sameCore_refl (s : GameState) : SameCore s s :=
  ⟨rfl, rfl, rfl, rfl, rfl, rfl, rfl⟩

theorem sameCore_trans {a b c : GameState} (h1 : SameCore a b) (h2 : SameCore b c) :
    SameCore a c := by
  obtain ⟨x1, x2, x3, x4, x5, x6, x7⟩ := h1
  obtain ⟨y1, y2, y3, y4, y5, y6, y7⟩ := h2
  exact ⟨y1.trans x1, y2.trans x2, y3.trans x3, y4.trans x4,
         y5.trans x5, y6.trans x6, y7.trans x7⟩

theorem afterRule_state {Q : GameState → Prop} {step : GameState × Option PyRet}
    {next : GameState → GameState × PyRet}
    (h1 : Q step.1) (h2 : ∀ s', Q s' → Q (next s').1) :
    Q (afterRule step next).1 := by
  rcases step with ⟨s1, a⟩
  cases a with
  | none => exact h2 s1 h1
  | some a => exact h1

theorem afterRule_ret {P : PyRet → Prop} {step : GameState × Option PyRet}
    {next : GameState → GameState × PyRet}
    (h1 : ∀ a, step.2 = some a → P a) (h2 : ∀ s', P (next s').2) :
    P (afterRule step next).2 := by
  rcases step with ⟨s1, a⟩
  cases a with
  | none => exact h2 s1
  | some a => exact h1 a rfl

theorem rule_wasabi_acquire_core (s : GameState) (h : List String) :
    SameCore s (rule_wasabi_acquire s h).1 := by
  unfold rule_wasabi_acquire
  split <;> exact sameCore_refl s

theorem rule_chopsticks_acquire_core (s : GameState) (h : List String) :
    SameCore s (rule_chopsticks_acquire s h).1 := by
  unfold rule_chopsticks_acquire
  split <;> exact sameCore_refl s

theorem rule_wasabi_spend_large_core (s : GameState) (h : List String) :
    SameCore s (rule_wasabi_spend_large s h).1 := by
  unfold rule_wasabi_spend_large
  split
  · split
    · exact ⟨rfl, rfl, rfl, rfl, rfl, rfl, rfl⟩
    · split
      · exact ⟨rfl, rfl, rfl, rfl, rfl, rfl, rfl⟩
      · exact sameCore_refl s
  · exact sameCore_refl s

theorem rule_wasabi_spend_small_core (s : GameState) (h : List String) :
    SameCore s (rule_wasabi_spend_small s h).1 := by
  unfold rule_wasabi_spend_small
  split
  · split
    · exact ⟨rfl, rfl, rfl, rfl, rfl, rfl, rfl⟩
    · split
      · exact ⟨rfl, rfl, rfl, rfl, rfl, rfl, rfl⟩
      · split
        · exact ⟨rfl, rfl, rfl, rfl, rfl, rfl, rfl⟩
        · exact sameCore_refl s
  · exact sameCore_refl s

theorem combo_loop_core (s : GameState) (h : List String) (names : List String) :
    SameCore s (combo_loop s h names).1 := by
  induction names with
  | nil => exact sameCore_refl s
  | cons name rest ih =>
    unfold combo_loop
    split
    · split
      · exact ih
      · exact ⟨rfl, rfl, rfl, rfl, rfl, rfl, rfl⟩
    · split
      · exact ⟨rfl, rfl, rfl, rfl, rfl, rfl, rfl⟩
      · split
        · exact ⟨rfl, rfl, rfl, rfl, rfl, rfl, rfl⟩
        · exact ih

theorem chopsticks_combo_core (s : GameState) (h : List String) :
    SameCore s (chopsticks_combo s h).1 := by
  unfold chopsticks_combo
  split
  · split
    · exact sameCore_refl s
    · exact combo_loop_core s h _
  · exact sameCore_refl s

theorem dumpling_single_core (s : GameState) (h : List String) :
    SameCore s (dumpling_single s h).1 := by
  unfold dumpling_single
  split
  · split
    · exact sameCore_refl s
    · exact ⟨rfl, rfl, rfl, rfl, rfl, rfl, rfl⟩
  · exact sameCore_refl s

theorem sashimi_single_core (s : GameState) (h : List String) :
    SameCore s (sashimi_single s h).1 := by
  unfold sashimi_single
  split
  · exact ⟨rfl, rfl, rfl, rfl, rfl, rfl, rfl⟩
  · exact sameCore_refl s

theorem tempura_single_core (s : GameState) (h : List String) :
    SameCore s (tempura_single s h).1 := by
  unfold tempura_single
  split
  · split
    · exact ⟨rfl, rfl, rfl, rfl, rfl, rfl, rfl⟩
    · exact ⟨rfl, rfl, rfl, rfl, rfl, rfl, rfl⟩
  · exact sameCore_refl s

theorem priority_loop_core (s : GameState) (h : List String) (cards : List String) :
    SameCore s (priority_loop s h cards).1 := by
  induction cards with
  | nil => exact sameCore_refl s
  | cons card rest ih =>
    unfold priority_loop
    split
    · split
      · exact ⟨rfl, rfl, rfl, rfl, rfl, rfl, rfl⟩
      · exact sameCore_refl s
    · exact ih

theorem choose_card_core (s : GameState) (h : List String) (r : Nat) :
    SameCore s (choose_card s h r).1 := by
  unfold choose_card
  refine afterRule_state (rule_wasabi_acquire_core s h) (fun s1 h1 => ?_)
  refine afterRule_state (sameCore_trans h1 (rule_chopsticks_acquire_core s1 h)) (fun s2 h2 => ?_)
  refine afterRule_state (sameCore_trans h2 (rule_wasabi_spend_large_core s2 h)) (fun s3 h3 => ?_)
  refine afterRule_state (sameCore_trans h3 (rule_wasabi_spend_small_core s3 h)) (fun s4 h4 => ?_)
  refine afterRule_state (sameCore_trans h4 (chopsticks_combo_core s4 h)) (fun s5 h5 => ?_)
  refine afterRule_state (sameCore_trans h5 (dumpling_single_core s5 h)) (fun s6 h6 => ?_)
  refine afterRule_state (sameCore_trans h6 (sashimi_single_core s6 h)) (fun s7 h7 => ?_)
  refine afterRule_state (sameCore_trans h7 (tempura_single_core s7 h)) (fun s8 h8 => ?_)
  refine afterRule_state (sameCore_trans h8 (priority_loop_core s8 h priorityCards)) (fun s9 h9 => ?_)
  exact h9

/-! ### Validity of the value returned by the decision engine -/

/-- Validity of a `choose_card` return value for a given hand: a single play
names an in-bounds index; a chopsticks play names two distinct in-bounds
indices holding either two copies of one card or a Wasabi plus a Nigiri. -/
def ValidRet (hand : List String) : PyRet → Prop
  | .intRet i => i < hand.length
  | .listRet l => ∃ i j, l = [i, j] ∧ i < hand.length ∧ j < hand.length ∧ i ≠ j ∧
      (hand.getD i "" = hand.getD j "" ∨
       (hand.getD i "" = "Wasabi" ∧ hand.getD j "" ∈ nigiriCards))

theorem valid_pair_of_count {h : List String} {name : String}
    (hc : 2 ≤ (h.filter (fun c => c = name)).length) :
    ValidRet h (.listRet ((card_indexes h name).take 2)) := by
  have hlen : 2 ≤ (card_indexes h name).length := by
    rw [card_indexes_length]; exact hc
  obtain ⟨i, j, tl, heq⟩ := take_two_of_two_le hlen
  have hi : i ∈ card_indexes h name := by rw [heq]; exact List.mem_cons_self _ _
  have hj : j ∈ card_indexes h name := by rw [heq]; simp
  have hpi := mem_card_indexes.1 hi
  have hpj := mem_card_indexes.1 hj
  have hij : i < j := by
    have hp := card_indexes_pairwise h name
    rw [heq] at hp
    exact (List.pairwise_cons.1 hp).1 j (List.mem_cons_self _ _)
  rw [heq]
  exact ⟨i, j, rfl, hpi.1, hpj.1, Nat.ne_of_lt hij,
         Or.inl (hpi.2.trans hpj.2.symm)⟩

theorem hw_valid (h : List String) :
    have_wasabi_and_nigiri h = [] ∨
      ValidRet h (.listRet (have_wasabi_and_nigiri h)) := by
  unfold have_wasabi_and_nigiri
  split
  · rename_i hc
    obtain ⟨hw, hn⟩ := hc
    right
    refine ⟨_, _, rfl, List.indexOf_lt_length.2 hw, List.indexOf_lt_length.2 hn, ?_,
            Or.inr ⟨getD_indexOf hw "", by rw [getD_indexOf hn ""]; decide⟩⟩
    intro heq
    have hgw := getD_indexOf hw ""
    rw [heq, getD_indexOf hn ""] at hgw
    exact absurd hgw (by decide)
  · split
    · rename_i hc
      obtain ⟨hw, hn⟩ := hc
      right
      refine ⟨_, _, rfl, List.indexOf_lt_length.2 hw, List.indexOf_lt_length.2 hn, ?_,
              Or.inr ⟨getD_indexOf hw "", by rw [getD_indexOf hn ""]; decide⟩⟩
      intro heq
      have hgw := getD_indexOf hw ""
      rw [heq, getD_indexOf hn ""] at hgw
      exact absurd hgw (by decide)
    · split
      · rename_i hc
        obtain ⟨hw, hn⟩ := hc
        right
        refine ⟨_, _, rfl, List.indexOf_lt_length.2 hw, List.indexOf_lt_length.2 hn, ?_,
                Or.inr ⟨getD_indexOf hw "", by rw [getD_indexOf hn ""]; decide⟩⟩
        intro heq
        have hgw := getD_indexOf hw ""
        rw [heq, getD_indexOf hn ""] at hgw
        exact absurd hgw (by decide)
      · left; rfl

theorem rule_wasabi_acquire_ret (s : GameState) (h : List String) :
    ∀ a, (rule_wasabi_acquire s h).2 = some a → ValidRet h a := by
  unfold rule_wasabi_acquire
  split
  · rename_i hc
    intro a ha
    injection ha with ha
    rw [← ha]
    exact List.indexOf_lt_length.2 hc.2.1
  · intro a ha; simp at ha

theorem rule_chopsticks_acquire_ret (s : GameState) (h : List String) :
    ∀ a, (rule_chopsticks_acquire s h).2 = some a → ValidRet h a := by
  unfold rule_chopsticks_acquire
  split
  · rename_i hc
    intro a ha
    injection ha with ha
    rw [← ha]
    exact List.indexOf_lt_length.2 hc.2.1
  · intro a ha; simp at ha

theorem rule_wasabi_spend_large_ret (s : GameState) (h : List String) :
    ∀ a, (rule_wasabi_spend_large s h).2 = some a → ValidRet h a := by
  unfold rule_wasabi_spend_large
  split
  · split
    · rename_i hm
      intro a ha
      injection ha with ha
      rw [← ha]
      exact List.indexOf_lt_length.2 hm
    · split
      · rename_i hm
        intro a ha
        injection ha with ha
        rw [← ha]
        exact List.indexOf_lt_length.2 hm
      · intro a ha; simp at ha
  · intro a ha; simp at ha

theorem rule_wasabi_spend_small_ret (s : GameState) (h : List String) :
    ∀ a, (rule_wasabi_spend_small s h).2 = some a → ValidRet h a := by
  unfold rule_wasabi_spend_small
  split
  · split
    · rename_i hm
      intro a ha
      injection ha with ha
      rw [← ha]
      exact List.indexOf_lt_length.2 hm
    · split
      · rename_i hm
        intro a ha
        injection ha with ha
        rw [← ha]
        exact List.indexOf_lt_length.2 hm
      · split
        · rename_i hm
          intro a ha
          injection ha with ha
          rw [← ha]
          exact List.indexOf_lt_length.2 hm
        · intro a ha; simp at ha
  · intro a ha; simp at ha

theorem combo_loop_ret (s : GameState) (h : List String) (names : List String)
    (hn : ∀ n ∈ names, 2 ≤ (h.filter (fun c => c = n)).length) :
    ∀ a, (combo_loop s h names).2 = some a → ValidRet h a := by
  induction names with
  | nil => intro a ha; simp [combo_loop] at ha
  | cons name rest ih =>
    intro a ha
    unfold combo_loop at ha
    split at ha
    · rename_i hd
      split at ha
      · exact ih (fun n hn' => hn n (List.mem_cons_of_mem _ hn')) a ha
      · injection ha with ha
        rw [← ha]
        have hcnt := hn name (List.mem_cons_self _ _)
        rw [hd.1] at hcnt
        exact valid_pair_of_count hcnt
    · split at ha
      · rename_i hd
        injection ha with ha
        rw [← ha]
        have hcnt := hn name (List.mem_cons_self _ _)
        rw [hd.1] at hcnt
        exact valid_pair_of_count hcnt
      · split at ha
        · rename_i hd
          injection ha with ha
          rw [← ha]
          have hcnt := hn name (List.mem_cons_self _ _)
          rw [hd] at hcnt
          exact valid_pair_of_count hcnt
        · exact ih (fun n hn' => hn n (List.mem_cons_of_mem _ hn')) a ha

theorem chopsticks_combo_ret (s : GameState) (h : List String) :
    ∀ a, (chopsticks_combo s h).2 = some a → ValidRet h a := by
  unfold chopsticks_combo
  split
  · split
    · rename_i hc
      intro a ha
      injection ha with ha
      rw [← ha]
      cases hw_valid h with
      | inl he => exact absurd he hc.1
      | inr hv => exact hv
    · intro a ha
      refine combo_loop_ret s h (have_set h) ?_ a ha
      intro n hmem
      have hf := List.mem_filter.1 hmem
      exact of_decide_eq_true hf.2
  · intro a ha; simp at ha

theorem dumpling_single_ret (s : GameState) (h : List String) :
    ∀ a, (dumpling_single s h).2 = some a → ValidRet h a := by
  unfold dumpling_single
  split
  · rename_i hc
    split
    · intro a ha; simp at ha
    · intro a ha
      injection ha with ha
      rw [← ha]
      exact List.indexOf_lt_length.2 hc.1
  · intro a ha; simp at ha

theorem sashimi_single_ret (s : GameState) (h : List String) :
    ∀ a, (sashimi_single s h).2 = some a → ValidRet h a := by
  unfold sashimi_single
  split
  · rename_i hc
    intro a ha
    injection ha with ha
    rw [← ha]
    exact List.indexOf_lt_length.2 hc.1
  · intro a ha; simp at ha

theorem tempura_single_ret (s : GameState) (h : List String) :
    ∀ a, (tempura_single s h).2 = some a → ValidRet h a := by
  unfold tempura_single
  split
  · rename_i hc
    split
    · intro a ha; simp at ha
    · intro a ha
      injection ha with ha
      rw [← ha]
      exact List.indexOf_lt_length.2 hc.1
  · intro a ha; simp at ha

theorem priority_loop_ret (s : GameState) (h : List String) (cards : List String) :
    ∀ a, (priority_loop s h cards).2 = some a → ValidRet h a := by
  induction cards with
  | nil => intro a ha; simp [priority_loop] at ha
  | cons card rest ih =>
    intro a ha
    unfold priority_loop at ha
    split at ha
    · rename_i hmem
      split at ha
      · injection ha with ha
        rw [← ha]
        exact List.indexOf_lt_length.2 hmem
      · injection ha with ha
        rw [← ha]
        exact List.indexOf_lt_length.2 hmem
    · exact ih a ha

theorem choose_card_valid (s : GameState) (h : List String) (r : Nat)
    (hr : r < h.length) : ValidRet h (choose_card s h r).2 := by
  unfold choose_card
  refine afterRule_ret (rule_wasabi_acquire_ret s h) (fun s1 => ?_)
  refine afterRule_ret (rule_chopsticks_acquire_ret s1 h) (fun s2 => ?_)
  refine afterRule_ret (rule_wasabi_spend_large_ret s2 h) (fun s3 => ?_)
  refine afterRule_ret (rule_wasabi_spend_small_ret s3 h) (fun s4 => ?_)
  refine afterRule_ret (chopsticks_combo_ret s4 h) (fun s5 => ?_)
  refine afterRule_ret (dumpling_single_ret s5 h) (fun s6 => ?_)
  refine afterRule_ret (sashimi_single_ret s6 h) (fun s7 => ?_)
  refine afterRule_ret (tempura_single_ret s7 h) (fun s8 => ?_)
  refine afterRule_ret (priority_loop_ret s8 h priorityCards) (fun s9 => ?_)
  exact hr

/-! ### Sashimi counter behaviour of the rule cascade -/

theorem rule_wasabi_acquire_sash (s : GameState) (h : List String) :
    (rule_wasabi_acquire s h).1.sashimi_count = s.sashimi_count := by
  unfold rule_wasabi_acquire; split <;> rfl

theorem rule_chopsticks_acquire_sash (s : GameState) (h : List String) :
    (rule_chopsticks_acquire s h).1.sashimi_count = s.sashimi_count := by
  unfold rule_chopsticks_acquire; split <;> rfl

theorem rule_wasabi_spend_large_sash (s : GameState) (h : List String) :
    (rule_wasabi_spend_large s h).1.sashimi_count = s.sashimi_count := by
  unfold rule_wasabi_spend_large
  split
  · split
    · rfl
    · split <;> rfl
  · rfl

theorem rule_wasabi_spend_small_sash (s : GameState) (h : List String) :
    (rule_wasabi_spend_small s h).1.sashimi_count = s.sashimi_count := by
  unfold rule_wasabi_spend_small
  split
  · split
    · rfl
    · split
      · rfl
      · split <;> rfl
  · rfl

theorem combo_loop_none (s : GameState) (h : List String) (names : List String) :
    (combo_loop s h names).2 = none → (combo_loop s h names).1 = s := by
  induction names with
  | nil => intro _; rfl
  | cons name rest ih =>
    unfold combo_loop
    split
    · split
      · exact ih
      · intro hn; simp at hn
    · split
      · intro hn; simp at hn
      · split
        · intro hn; simp at hn
        · exact ih

theorem combo_loop_sash (s : GameState) (h : List String) (names : List String) :
    (combo_loop s h names).1.sashimi_count = s.sashimi_count ∨
      (s.sashimi_count = 0 ∧ (combo_loop s h names).1.sashimi_count = 2) := by
  induction names with
  | nil => exact Or.inl rfl
  | cons name rest ih =>
    unfold combo_loop
    split
    · split
      · exact ih
      · exact Or.inl rfl
    · split
      · rename_i hd
        exact Or.inr ⟨hd.2.1, by simp [hd.2.1]⟩
      · split
        · exact Or.inl rfl
        · exact ih

theorem chopsticks_combo_none (s : GameState) (h : List String) :
    (chopsticks_combo s h).2 = none → (chopsticks_combo s h).1 = s := by
  unfold chopsticks_combo
  split
  · split
    · intro hn; simp at hn
    · exact combo_loop_none s h _
  · intro _; rfl

theorem chopsticks_combo_sash (s : GameState) (h : List String) :
    (chopsticks_combo s h).1.sashimi_count = s.sashimi_count ∨
      (s.sashimi_count = 0 ∧ (chopsticks_combo s h).1.sashimi_count = 2) := by
  unfold chopsticks_combo
  split
  · split
    · exact Or.inl rfl
    · exact combo_loop_sash s h _
  · exact Or.inl rfl

theorem dumpling_single_sash (s : GameState) (h : List String) :
    (dumpling_single s h).1.sashimi_count = s.sashimi_count := by
  unfold dumpling_single
  split
  · split <;> rfl
  · rfl

theorem sashimi_single_none (s : GameState) (h : List String) :
    (sashimi_single s h).2 = none → (sashimi_single s h).1 = s := by
  unfold sashimi_single
  split
  · intro hn; simp at hn
  · intro _; rfl

theorem sashimi_single_sash (s : GameState) (h : List String) :
    (sashimi_single s h).1.sashimi_count = s.sashimi_count ∨
      (s.sashimi_count = 2 ∧ (sashimi_single s h).1.sashimi_count = 3) := by
  unfold sashimi_single
  split
  · rename_i hc
    exact Or.inr ⟨hc.2, by simp [hc.2]⟩
  · exact Or.inl rfl

theorem tempura_single_sash (s : GameState) (h : List String) :
    (tempura_single s h).1.sashimi_count = s.sashimi_count := by
  unfold tempura_single
  split
  · split <;> rfl
  · rfl

theorem priority_loop_sash (s : GameState) (h : List String) (cards : List String) :
    (priority_loop s h cards).1.sashimi_count = s.sashimi_count := by
  induction cards with
  | nil => rfl
  | cons card rest ih =>
    unfold priority_loop
    split
    · split <;> rfl
    · exact ih

theorem afterRule_meas {m : GameState → Nat} {R : Nat → Nat → Prop} {x : Nat}
    {step : GameState × Option PyRet} {next : GameState → GameState × PyRet}
    (hsome : ∀ a, step.2 = some a → R x (m step.1))
    (hnone : step.2 = none → m step.1 = x)
    (hn : ∀ s', m s' = x → R x (m (next s').1)) :
    R x (m (afterRule step next).1) := by
  rcases step with ⟨s1, a⟩
  cases a with
  | none => exact hn s1 (hnone rfl)
  | some a => exact hsome a rfl

theorem choose_card_sash (s : GameState) (h : List String) (r : Nat) :
    (choose_card s h r).1.sashimi_count = s.sashimi_count ∨
      (s.sashimi_count = 0 ∧ (choose_card s h r).1.sashimi_count = 2) ∨
      (s.sashimi_count = 2 ∧ (choose_card s h r).1.sashimi_count = 3) := by
  unfold choose_card
  refine afterRule_meas (m := GameState.sashimi_count)
    (R := fun x y => y = x ∨ (x = 0 ∧ y = 2) ∨ (x = 2 ∧ y = 3))
    (x := s.sashimi_count)
    (fun a _ => Or.inl (rule_wasabi_acquire_sash s h))
    (fun _ => rule_wasabi_acquire_sash s h) (fun s1 h1 => ?_)
  refine afterRule_meas (m := GameState.sashimi_count)
    (R := fun x y => y = x ∨ (x = 0 ∧ y = 2) ∨ (x = 2 ∧ y = 3))
    (x := s.sashimi_count)
    (fun a _ => Or.inl ((rule_chopsticks_acquire_sash s1 h).trans h1))
    (fun _ => (rule_chopsticks_acquire_sash s1 h).trans h1) (fun s2 h2 => ?_)
  refine afterRule_meas (m := GameState.sashimi_count)
    (R := fun x y => y = x ∨ (x = 0 ∧ y = 2) ∨ (x = 2 ∧ y = 3))
    (x := s.sashimi_count)
    (fun a _ => Or.inl ((rule_wasabi_spend_large_sash s2 h).trans h2))
    (fun _ => (rule_wasabi_spend_large_sash s2 h).trans h2) (fun s3 h3 => ?_)
  refine afterRule_meas (m := GameState.sashimi_count)
    (R := fun x y => y = x ∨ (x = 0 ∧ y = 2) ∨ (x = 2 ∧ y = 3))
    (x := s.sashimi_count)
    (fun a _ => Or.inl ((rule_wasabi_spend_small_sash s3 h).trans h3))
    (fun _ => (rule_wasabi_spend_small_sash s3 h).trans h3) (fun s4 h4 => ?_)
  refine afterRule_meas (m := GameState.sashimi_count)
    (R := fun x y => y = x ∨ (x = 0 ∧ y = 2) ∨ (x = 2 ∧ y = 3))
    (x := s.sashimi_count) (fun a _ => ?_)
    (fun hn => (congrArg GameState.sashimi_count (chopsticks_combo_none s4 h hn)).trans h4)
    (fun s5 h5 => ?_)
  · rcases chopsticks_combo_sash s4 h with he | hz
    · exact Or.inl (he.trans h4)
    · exact Or.inr (Or.inl ⟨h4 ▸ hz.1, hz.2⟩)
  refine afterRule_meas (m := GameState.sashimi_count)
    (R := fun x y => y = x ∨ (x = 0 ∧ y = 2) ∨ (x = 2 ∧ y = 3))
    (x := s.sashimi_count)
    (fun a _ => Or.inl ((dumpling_single_sash s5 h).trans h5))
    (fun _ => (dumpling_single_sash s5 h).trans h5) (fun s6 h6 => ?_)
  refine afterRule_meas (m := GameState.sashimi_count)
    (R := fun x y => y = x ∨ (x = 0 ∧ y = 2) ∨ (x = 2 ∧ y = 3))
    (x := s.sashimi_count) (fun a _ => ?_)
    (fun hn => (congrArg GameState.sashimi_count (sashimi_single_none s6 h hn)).trans h6)
    (fun s7 h7 => ?_)
  · rcases sashimi_single_sash s6 h with he | hz
    · exact Or.inl (he.trans h6)
    · exact Or.inr (Or.inr ⟨h6 ▸ hz.1, hz.2⟩)
  refine afterRule_meas (m := GameState.sashimi_count)
    (R := fun x y => y = x ∨ (x = 0 ∧ y = 2) ∨ (x = 2 ∧ y = 3))
    (x := s.sashimi_count)
    (fun a _ => Or.inl ((tempura_single_sash s7 h).trans h7))
    (fun _ => (tempura_single_sash s7 h).trans h7) (fun s8 h8 => ?_)
  refine afterRule_meas (m := GameState.sashimi_count)
    (R := fun x y => y = x ∨ (x = 0 ∧ y = 2) ∨ (x = 2 ∧ y = 3))
    (x := s.sashimi_count)
    (fun a _ => Or.inl ((priority_loop_sash s8 h priorityCards).trans h8))
    (fun _ => (priority_loop_sash s8 h priorityCards).trans h8) (fun s9 h9 => ?_)
  exact Or.inl h9

/-! ### Tracker lemmas -/

theorem parse_hand_eq (s : GameState) (cards : List String) :
    parse_hand s cards =
      if s.hand.length < cards.length then
        { s with
          hand := cards, played_cards := []
          dumpling_count := 0, sashimi_count := 0, tempura_count := 0
          has_chopsticks := false, has_unused_wasabi := false }
      else
        { s with
          hand := cards
          has_chopsticks := s.played_cards.contains "Chopsticks"
          has_unused_wasabi := (s.played_cards.any fun c => c == "Wasabi") &&
            !(s.played_cards.any fun c => nigiriCards.contains c) } := by
  unfold parse_hand
  split
  · rfl
  · rfl

theorem wasabi_flag_iff (pc : List String) :
    ((pc.any fun c => c == "Wasabi") &&
        !(pc.any fun c => nigiriCards.contains c)) = true ↔
      ("Wasabi" ∈ pc ∧ ∀ c ∈ pc, c ∉ nigiriCards) := by
  simp [List.any_eq_true, List.elem_iff]

theorem choose_card_rule1 (s : GameState) (hand : List String) (r : Nat)
    (h1 : s.has_unused_wasabi = false) (h2 : "Wasabi" ∈ hand)
    (h3 : 5 < hand.length) :
    choose_card s hand r = (s, .intRet (hand.indexOf "Wasabi")) := by
  unfold choose_card rule_wasabi_acquire
  rw [if_pos ⟨by simp [h1], h2, h3⟩]
  rfl

theorem play_turn_state_single (s : GameState) (r : Nat) (hne : s.hand ≠ [])
    {s1 : GameState} {i : Nat}
    (hcc : choose_card s s.hand r = (s1, PyRet.intRet i)) :
    (play_turn s r).1 =
      { s1 with played_cards := s1.played_cards ++ [s1.hand.getD i ""] } := by
  unfold play_turn
  rw [if_neg hne, hcc]

theorem play_turn_sash (s : GameState) (r : Nat) :
    (play_turn s r).1.sashimi_count = s.sashimi_count ∨
      (s.sashimi_count = 0 ∧ (play_turn s r).1.sashimi_count = 2) ∨
      (s.sashimi_count = 2 ∧ (play_turn s r).1.sashimi_count = 3) := by
  have hs := choose_card_sash s s.hand r
  unfold play_turn
  split
  · exact Or.inl rfl
  · rcases hcc : choose_card s s.hand r with ⟨s1, ret⟩
    rw [hcc] at hs
    cases ret
    · exact hs
    · exact hs

/-! ### The claims -/

/-- Claim C1 (code bug): `run` is claimed to seed `starting_hand_size` with
the first received HAND's card count, but line 396 runs before any HAND is
parsed, while the stored hand is still the empty list from `join_game`; on a
session whose first HAND has 8 cards the recorded value is 0, and it is never
updated afterwards. -/
theorem run_starting_hand_size_zero :
    ((run "g" "Bot" [ServerMsg.welcome "g" 1, ServerMsg.roundStart 1,
        ServerMsg.hand cexHandLong] []).state.map
      GameState.starting_hand_size) = some 0 ∧ cexHandLong.length = 8 := by
  constructor
  · rfl
  · rfl

/-- Claim C2: on a decoded HAND strictly longer than the stored hand,
`parse_hand` clears `played_cards`, zeroes the Dumpling/Sashimi/Tempura
counters, carries Pudding forward, and stores the new hand; a HAND that is
not strictly longer resets nothing (the hand is still replaced). -/
theorem parse_hand_round_boundary (s : GameState) (cards : List String) :
    (s.hand.length < cards.length →
      (parse_hand s cards).played_cards = [] ∧
      (parse_hand s cards).dumpling_count = 0 ∧
      (parse_hand s cards).sashimi_count = 0 ∧
      (parse_hand s cards).tempura_count = 0 ∧
      (parse_hand s cards).pudding_count = s.pudding_count ∧
      (parse_hand s cards).hand = cards) ∧
    (¬ s.hand.length < cards.length →
      (parse_hand s cards).played_cards = s.played_cards ∧
      (parse_hand s cards).dumpling_count = s.dumpling_count ∧
      (parse_hand s cards).sashimi_count = s.sashimi_count ∧
      (parse_hand s cards).tempura_count = s.tempura_count ∧
      (parse_hand s cards).pudding_count = s.pudding_count ∧
      (parse_hand s cards).hand = cards) := by
  rw [parse_hand_eq]
  constructor
  · intro hlt
    rw [if_pos hlt]
    exact ⟨rfl, rfl, rfl, rfl, rfl, rfl⟩
  · intro hge
    rw [if_neg hge]
    exact ⟨rfl, rfl, rfl, rfl, rfl, rfl⟩

/-- Witness for C2: a stored hand of 3 cards followed by an 8-card HAND
resets the table but keeps the Pudding count. -/
theorem parse_hand_round_boundary_witness :
    wState2.hand.length < cexHandLong.length ∧
      ((parse_hand wState2 cexHandLong).played_cards = [] ∧
       (parse_hand wState2 cexHandLong).dumpling_count = 0 ∧
       (parse_hand wState2 cexHandLong).sashimi_count = 0 ∧
       (parse_hand wState2 cexHandLong).tempura_count = 0 ∧
       (parse_hand wState2 cexHandLong).pudding_count = wState2.pudding_count ∧
       (parse_hand wState2 cexHandLong).hand = cexHandLong) :=
  ⟨by decide, (parse_hand_round_boundary wState2 cexHandLong).1 (by decide)⟩

/-- Claim C3 counterexample: with chopsticks held and hand
`["Wasabi", "Squid Nigiri"]`, `choose_card` returns the pair `[0, 1]`, whose
two cards are a Wasabi and a Squid Nigiri — not two copies of one targeted
card, refuting the claim that a chopsticks action always names two indices
of the same card. -/
theorem choose_card_pair_cards_differ :
    (choose_card cexState3 cexState3.hand 0).2 = PyRet.listRet [0, 1] ∧
      cexState3.hand.getD 0 "" = "Wasabi" ∧
      cexState3.hand.getD 1 "" = "Squid Nigiri" ∧
      ("Wasabi" : String) ≠ "Squid Nigiri" := by
  decide

/-- Claim C3 (amended): for every non-empty hand and every state, the chosen
action is a single in-bounds index, or a pair of two distinct in-bounds
indices holding either two copies of one card (a set-building combo) or a
Wasabi plus a Nigiri. -/
theorem choose_card_action_valid (s : GameState) (hand : List String) (r : Nat)
    (hne : hand ≠ []) (hr : r < hand.length) :
    ValidRet hand (choose_card s hand r).2 :=
  choose_card_valid s hand r hr

/-- Witness for the amended C3. -/
theorem choose_card_action_valid_witness :
    (["Pudding"] : List String) ≠ [] ∧ 0 < (["Pudding"] : List String).length ∧
      ValidRet ["Pudding"] (choose_card wState3 ["Pudding"] 0).2 :=
  ⟨by decide, by decide, choose_card_action_valid wState3 ["Pudding"] 0 (by decide) (by decide)⟩

/-- Claim C4 counterexample: rule 1 fires (no unused wasabi, Wasabi in a
6-card hand) and the Wasabi play is committed, but because an Egg Nigiri was
already in `played_cards`, `has_unused_wasabi` is still false once the next
HAND is processed — the claim promises it becomes true. -/
theorem wasabi_flag_not_set_with_prior_nigiri :
    cexState4.has_unused_wasabi = false ∧
      "Wasabi" ∈ cexState4.hand ∧ 5 < cexState4.hand.length ∧
      (choose_card cexState4 cexState4.hand 0).2 =
        PyRet.intRet (cexState4.hand.indexOf "Wasabi") ∧
      (play_turn cexState4 0).1.played_cards = ["Egg Nigiri", "Wasabi"] ∧
      (parse_hand (play_turn cexState4 0).1 ["Tempura"]).has_unused_wasabi = false := by
  decide

/-- Claim C4 (amended): if rule 1 plays Wasabi and no Nigiri is among the
already-played cards, `has_unused_wasabi` is true once the next (non-longer)
HAND is processed; and whenever a Nigiri is the committed play while an
unused wasabi is held, `has_unused_wasabi` is false after the next HAND. -/
theorem wasabi_lifecycle_amended (s : GameState) (r : Nat) (cards : List String) :
    (s.has_unused_wasabi = false → "Wasabi" ∈ s.hand → 5 < s.hand.length →
      (∀ c ∈ s.played_cards, c ∉ nigiriCards) → cards.length ≤ s.hand.length →
      (parse_hand (play_turn s r).1 cards).has_unused_wasabi = true) ∧
    (s.has_unused_wasabi = true → ∀ n ∈ nigiriCards,
      (play_turn s r).1.played_cards = s.played_cards ++ [n] →
      (parse_hand (play_turn s r).1 cards).has_unused_wasabi = false) := by
  constructor
  · intro h1 h2 h3 h4 h5
    have hne : s.hand ≠ [] := by
      intro he; rw [he] at h3; simp at h3
    rw [play_turn_state_single s r hne (choose_card_rule1 s s.hand r h1 h2 h3)]
    rw [getD_indexOf h2 ""]
    rw [parse_hand_eq]
    split
    · rename_i hlt
      exact absurd hlt (by simpa using Nat.not_lt.2 h5)
    · refine (wasabi_flag_iff (s.played_cards ++ ["Wasabi"])).2 ⟨by simp, ?_⟩
      intro c hc
      rcases List.mem_append.1 hc with hmem | hmem
      · exact h4 c hmem
      · simp only [List.mem_singleton] at hmem
        subst hmem
        decide
  · intro hw n hn hpc
    rw [parse_hand_eq]
    split
    · rfl
    · rw [hpc]
      have hcn : nigiriCards.contains n = true := List.elem_iff.2 hn
      simp [List.any_append, hcn]
      intro _ _
      exact hn

/-- Witness for the amended C4: both halves at concrete states. -/
theorem wasabi_lifecycle_amended_witness :
    (parse_hand (play_turn wState4 0).1 ["Tempura"]).has_unused_wasabi = true ∧
      (parse_hand (play_turn cexState10 0).1 []).has_unused_wasabi = false :=
  ⟨(wasabi_lifecycle_amended wState4 0 ["Tempura"]).1 (by decide) (by decide)
      (by decide) (by decide) (by decide),
   (wasabi_lifecycle_amended cexState10 0 []).2 (by decide) "Egg Nigiri"
      (by decide) (by decide)⟩

/-- Claim C5 counterexample: ROUND_END clears `played_cards` but leaves
`has_unused_wasabi` set, so immediately after that tracker update the flag is
true while no Wasabi is among the (now empty) played cards — the claimed
invariant does not hold after every processed message. -/
theorem wasabi_invariant_round_end_cex :
    (handle_message cexState5 ServerMsg.roundEnd).1.has_unused_wasabi = true ∧
      "Wasabi" ∉ (handle_message cexState5 ServerMsg.roundEnd).1.played_cards := by
  decide

/-- Claim C5 (amended): the invariant is re-established by every processed
HAND message — after any `parse_hand`, `has_unused_wasabi` is true iff
`played_cards` holds a Wasabi and no Egg/Salmon/Squid Nigiri; it is not
maintained by the other message handlers or by the eager play commit. -/
theorem wasabi_invariant_after_hand (s : GameState) (cards : List String) :
    (parse_hand s cards).has_unused_wasabi = true ↔
      ("Wasabi" ∈ (parse_hand s cards).played_cards ∧
        ∀ c ∈ (parse_hand s cards).played_cards, c ∉ nigiriCards) := by
  rw [parse_hand_eq]
  split
  · simp
  · exact wasabi_flag_iff s.played_cards

/-- Claim C6: with a committed Dumpling count of 0 and a stored hand longer
than half the starting hand size, the single-card Dumpling rule defers — it
returns no play and leaves the state unchanged, so the later rules decide. -/
theorem dumpling_single_deferral (s : GameState) (hand : List String)
    (h1 : "Dumpling" ∈ hand) (h2 : s.dumpling_count = 0)
    (h3 : s.starting_hand_size < 2 * s.hand.length) :
    dumpling_single s hand = (s, none) := by
  unfold dumpling_single
  rw [if_pos ⟨h1, by omega⟩, if_pos ⟨h2, h3⟩]

/-- Witness for C6. -/
theorem dumpling_single_deferral_witness :
    "Dumpling" ∈ wState6.hand ∧ wState6.dumpling_count = 0 ∧
      wState6.starting_hand_size < 2 * wState6.hand.length ∧
      dumpling_single wState6 wState6.hand = (wState6, none) :=
  ⟨by decide, by decide, by decide,
   dumpling_single_deferral wState6 wState6.hand (by decide) (by decide) (by decide)⟩

/-- Claim C7: an ERROR response to JOIN ends the session: no GameState is
created (`join_game` returns False), the only message ever sent is the JOIN
itself — no READY, PLAY or CHOPSTICKS — and the transport is released. -/
theorem join_error_ends_session (gid pname : String) (inbound : List ServerMsg)
    (rands : List Nat) (h : join_scan inbound = JoinResult.rejected) :
    run gid pname inbound rands = ⟨none, [OutMsg.join gid pname], true⟩ := by
  unfold run
  rw [h]

/-- Witness for C7: a WAITING line followed by ERROR. -/
theorem join_error_ends_session_witness :
    join_scan [ServerMsg.waiting, ServerMsg.error] = JoinResult.rejected ∧
      run "a" "b" [ServerMsg.waiting, ServerMsg.error] [] =
        ⟨none, [OutMsg.join "a" "b"], true⟩ :=
  ⟨by decide, join_error_ends_session "a" "b" _ [] (by decide)⟩

/-- Claim C8: once the single-card Tempura branch is reached (Tempura in
hand, stored hand at least half the starting size), the Tempura counter is
incremented by one unconditionally — also when the even-count/small-hand
deferral then suppresses the play, which is exactly when the rule returns
none. -/
theorem tempura_single_increments (s : GameState) (hand : List String)
    (h1 : "Tempura" ∈ hand) (h2 : s.starting_hand_size ≤ 2 * s.hand.length) :
    (tempura_single s hand).1.tempura_count = s.tempura_count + 1 ∧
      ((tempura_single s hand).2 = none ↔
        (s.tempura_count + 1) % 2 = 0 ∧ s.hand.length < 4) := by
  unfold tempura_single
  rw [if_pos ⟨h1, h2⟩]
  split
  · rename_i hd
    exact ⟨rfl, by simp [hd]⟩
  · rename_i hd
    refine ⟨rfl, ?_⟩
    simp [hd]

/-- Witness for C8: a deferred Tempura (count becomes even, hand below 4)
still increments the counter. -/
theorem tempura_single_increments_witness :
    "Tempura" ∈ wState8.hand ∧ wState8.starting_hand_size ≤ 2 * wState8.hand.length ∧
      (tempura_single wState8 wState8.hand).1.tempura_count = wState8.tempura_count + 1 ∧
      ((tempura_single wState8 wState8.hand).2 = none ↔
        (wState8.tempura_count + 1) % 2 = 0 ∧ wState8.hand.length < 4) :=
  ⟨by decide, by decide,
   tempura_single_increments wState8 wState8.hand (by decide) (by decide)⟩

/-- Claim C9: across one decision-and-commit step the committed Sashimi
counter either stays, goes 0 to 2 (chopsticks combo), or goes 2 to 3 (single
rule); hence starting from a value in {0, 2, 3} it stays in {0, 2, 3}, and a
HAND update either keeps it or resets it to 0. -/
theorem sashimi_counter_steps (s : GameState) (r : Nat) :
    ((play_turn s r).1.sashimi_count = s.sashimi_count ∨
      (s.sashimi_count = 0 ∧ (play_turn s r).1.sashimi_count = 2) ∨
      (s.sashimi_count = 2 ∧ (play_turn s r).1.sashimi_count = 3)) ∧
    ((s.sashimi_count = 0 ∨ s.sashimi_count = 2 ∨ s.sashimi_count = 3) →
      ((play_turn s r).1.sashimi_count = 0 ∨ (play_turn s r).1.sashimi_count = 2 ∨
        (play_turn s r).1.sashimi_count = 3)) ∧
    (∀ cards, (parse_hand s cards).sashimi_count = s.sashimi_count ∨
      (parse_hand s cards).sashimi_count = 0) := by
  refine ⟨play_turn_sash s r, ?_, ?_⟩
  · intro hin
    rcases play_turn_sash s r with he | hz | hz
    · omega
    · omega
    · omega
  · intro cards
    rw [parse_hand_eq]
    split
    · exact Or.inr rfl
    · exact Or.inl rfl

/-- Witness for C9: from a count of 2 with Sashimi in hand the single rule
completes the set. -/
theorem sashimi_counter_steps_witness :
    (wState9.sashimi_count = 0 ∨ wState9.sashimi_count = 2 ∨ wState9.sashimi_count = 3) ∧
      ((play_turn wState9 0).1.sashimi_count = 0 ∨
        (play_turn wState9 0).1.sashimi_count = 2 ∨
        (play_turn wState9 0).1.sashimi_count = 3) :=
  ⟨by decide, (sashimi_counter_steps wState9 0).2.1 (by decide)⟩

/-- Claim C10 counterexample: a committed single play can change more than
`played_cards` — here rule 4 spends the held wasabi while selecting Egg
Nigiri, so `has_unused_wasabi` flips during the same `play_turn`, refuting
"all other GameState fields are unchanged". -/
theorem play_turn_single_changes_other_fields :
    (play_turn cexState10 0).1.played_cards =
        cexState10.played_cards ++ ["Egg Nigiri"] ∧
      (choose_card cexState10 cexState10.hand 0).2 = PyRet.intRet 0 ∧
      (play_turn cexState10 0).1.has_unused_wasabi ≠ cexState10.has_unused_wasabi := by
  decide

/-- Claim C10 (amended): `play_turn` never touches the hand, ids, round,
turn or starting size; a single play appends exactly the selected card to
`played_cards` and otherwise returns the decision engine's state unchanged;
a chopsticks play appends the two selected cards, removes one "Chopsticks"
occurrence when one is present, clears `has_chopsticks`, and otherwise
returns the decision engine's state unchanged. -/
theorem play_turn_commit_effects (s : GameState) (r : Nat) (hne : s.hand ≠ []) :
    ((play_turn s r).1.hand = s.hand ∧
      (play_turn s r).1.game_id = s.game_id ∧
      (play_turn s r).1.player_id = s.player_id ∧
      (play_turn s r).1.starting_hand_size = s.starting_hand_size ∧
      (play_turn s r).1.round = s.round ∧
      (play_turn s r).1.turn = s.turn) ∧
    (∀ i, (choose_card s s.hand r).2 = PyRet.intRet i →
      (play_turn s r).1.played_cards = s.played_cards ++ [s.hand.getD i ""] ∧
      (play_turn s r).1.has_chopsticks = (choose_card s s.hand r).1.has_chopsticks ∧
      (play_turn s r).1.has_unused_wasabi = (choose_card s s.hand r).1.has_unused_wasabi ∧
      (play_turn s r).1.dumpling_count = (choose_card s s.hand r).1.dumpling_count ∧
      (play_turn s r).1.sashimi_count = (choose_card s s.hand r).1.sashimi_count ∧
      (play_turn s r).1.tempura_count = (choose_card s s.hand r).1.tempura_count ∧
      (play_turn s r).1.pudding_count = (choose_card s s.hand r).1.pudding_count) ∧
    (∀ l, (choose_card s s.hand r).2 = PyRet.listRet l →
      (play_turn s r).1.has_chopsticks = false ∧
      (play_turn s r).1.played_cards =
        (if "Chopsticks" ∈ s.played_cards ++
            [s.hand.getD (l.getD 0 0) "", s.hand.getD (l.getD 1 0) ""] then
          (s.played_cards ++
            [s.hand.getD (l.getD 0 0) "", s.hand.getD (l.getD 1 0) ""]).erase "Chopsticks"
        else s.played_cards ++
            [s.hand.getD (l.getD 0 0) "", s.hand.getD (l.getD 1 0) ""]) ∧
      (play_turn s r).1.has_unused_wasabi = (choose_card s s.hand r).1.has_unused_wasabi ∧
      (play_turn s r).1.dumpling_count = (choose_card s s.hand r).1.dumpling_count ∧
      (play_turn s r).1.sashimi_count = (choose_card s s.hand r).1.sashimi_count ∧
      (play_turn s r).1.tempura_count = (choose_card s s.hand r).1.tempura_count ∧
      (play_turn s r).1.pudding_count = (choose_card s s.hand r).1.pudding_count) := by
  have core := choose_card_core s s.hand r
  rcases hcc : choose_card s s.hand r with ⟨s1, ret⟩
  rw [hcc] at core
  obtain ⟨c1, c2, c3, c4, c5, c6, c7⟩ := core
  have d1 : s1.game_id = s.game_id := c1
  have d2 : s1.player_id = s.player_id := c2
  have d3 : s1.hand = s.hand := c3
  have d4 : s1.starting_hand_size = s.starting_hand_size := c4
  have d5 : s1.round = s.round := c5
  have d6 : s1.turn = s.turn := c6
  have d7 : s1.played_cards = s.played_cards := c7
  unfold play_turn
  rw [if_neg hne, hcc]
  cases ret with
  | intRet i0 =>
    refine ⟨⟨d3, d1, d2, d4, d5, d6⟩, ?_, ?_⟩
    · intro i hi
      injection hi with hi
      subst hi
      refine ⟨?_, rfl, rfl, rfl, rfl, rfl, rfl⟩
      show s1.played_cards ++ [s1.hand.getD i0 ""] =
        s.played_cards ++ [s.hand.getD i0 ""]
      rw [d7, d3]
    · intro l hl
      exact PyRet.noConfusion hl
  | listRet l0 =>
    refine ⟨⟨d3, d1, d2, d4, d5, d6⟩, ?_, ?_⟩
    · intro i hi
      exact PyRet.noConfusion hi
    · intro l hl
      injection hl with hl
      subst hl
      refine ⟨rfl, ?_, rfl, rfl, rfl, rfl, rfl⟩
      show (if "Chopsticks" ∈ s1.played_cards ++
              [s1.hand.getD (l0.getD 0 0) "", s1.hand.getD (l0.getD 1 0) ""] then
            (s1.played_cards ++
              [s1.hand.getD (l0.getD 0 0) "", s1.hand.getD (l0.getD 1 0) ""]).erase
              "Chopsticks"
          else s1.played_cards ++
              [s1.hand.getD (l0.getD 0 0) "", s1.hand.getD (l0.getD 1 0) ""]) =
        (if "Chopsticks" ∈ s.played_cards ++
              [s.hand.getD (l0.getD 0 0) "", s.hand.getD (l0.getD 1 0) ""] then
            (s.played_cards ++
              [s.hand.getD (l0.getD 0 0) "", s.hand.getD (l0.getD 1 0) ""]).erase
              "Chopsticks"
          else s.played_cards ++
              [s.hand.getD (l0.getD 0 0) "", s.hand.getD (l0.getD 1 0) ""])
      rw [d7, d3]

/-- Witness for the amended C10: a plain Squid Nigiri single play. -/
theorem play_turn_commit_effects_witness :
    wState10.hand ≠ [] ∧
      (play_turn wState10 0).1.hand = wState10.hand ∧
      (play_turn wState10 0).1.played_cards =
        wState10.played_cards ++ [wState10.hand.getD 0 ""] :=
  ⟨by decide, ((play_turn_commit_effects wState10 0 (by decide)).1).1,
   (((play_turn_commit_effects wState10 0 (by decide)).2.1 0 (by decide)).1)⟩
